import Mathlib

/-!
Verification of the interactive terminal menu/chat engine of the
mode-terminal repository (`modules/menu_input.py`, `modules/working_menu.py`,
`modules/ai_assistant.py`).

Python strings are embedded as `List Char`; `str.strip`, `str.startswith`
and `str.lower` are embedded structurally below so that all definitions are
executable and decidable.
-/

namespace ModeTerminal

/-- Whitespace characters stripped by Python `str.strip()` (ASCII range). -/
def pyIsSpace (c : Char) : Bool :=
  c = ' ' ∨ c = '\t' ∨ c = '\n' ∨ c = '\r' ∨ c = '\x0b' ∨ c = '\x0c'

/-- Python `str.strip()`: drop whitespace from both ends. -/
def pyStrip (s : List Char) : List Char :=
  ((s.dropWhile pyIsSpace).reverse.dropWhile pyIsSpace).reverse

/-- Python `str.startswith(pre)`. -/
def pyStartsWith : List Char → List Char → Bool
  | _, [] => true
  | [], _ :: _ => false
  | c :: s, p :: ps => c = p && pyStartsWith s ps

/-- Python `str.lower()` (ASCII case folding, as used on single key chars). -/
def pyLower (s : List Char) : List Char :=
  s.map Char.toLower

/-! ## Key decoder of `MenuInput._get_live_key` (menu_input.py lines 153-211)

The decoder reads characters from the raw byte stream.  `sys.stdin.read(1)`
on an exhausted stream returns the empty string, which matches none of the
dispatch branches; an exhausted stream at the first read is modelled by the
`emptyRead` result. -/

/-- The string results returned by `MenuInput._get_live_key`.  `ch c` is the
code's final `return ch` (and the `return 'q'` for Ctrl-C is `ch 'q'`). -/
inductive RawKey where
  | UP | DOWN | RIGHT | LEFT | ESC | ENTER | TAB | VIEW_MESSAGES
  | ch (c : Char)
  | emptyRead
  deriving DecidableEq, Repr

/-- `MenuInput._get_live_key` body (the raw-mode read/decode, lines 163-201),
as a function of the remaining input stream.  Returns the decoded key and the
unconsumed rest of the stream. -/
def getLiveKey (aiMode : Bool) : List Char → RawKey × List Char
  | [] => (.emptyRead, [])
  | c :: rest =>
    if c = '\x1b' then
      match rest with
      | [] => (.ESC, [])
      | c2 :: rest2 =>
        if c2 = '[' then
          match rest2 with
          | [] => (.ESC, [])
          | c3 :: rest3 =>
            if c3 = 'A' then (.UP, rest3)
            else if c3 = 'B' then (.DOWN, rest3)
            else if c3 = 'C' then (.RIGHT, rest3)
            else if c3 = 'D' then (.LEFT, rest3)
            else (.ESC, rest3)
        else if c2 = 'm' then (.VIEW_MESSAGES, rest2)
        else (.ESC, rest2)
    else if c = '\r' ∨ c = '\n' then (.ENTER, rest)
    else if c = '\t' then (.TAB, rest)
    else if c = '\x03' then (.ch 'q', rest)
    else if c = 'j' ∧ aiMode = false then (.DOWN, rest)
    else if c = 'k' ∧ aiMode = false then (.UP, rest)
    else (.ch c, rest)

/-! ## Terminal attribute handling (menu_input.py lines 159-211,
working_menu.py lines 108-176)

Terminal attribute words are abstracted as `Nat`.  `rawSettings` and
`cbreakSettings` stand for the attribute words installed by `tty.setraw`
and `tty.cbreak`; `restoreAttrs` is `termios.tcsetattr(fd, TCSADRAIN, old)`,
which replaces the current attributes with the saved ones. -/

def rawSettings : Nat := 1

def cbreakSettings : Nat := 2

def restoreAttrs (_current old : Nat) : Nat := old

/-- Result of one call to `MenuInput._get_live_key`: either a decoded key, or
the `raise KeyboardInterrupt` issued by the `except Exception` fallback
(lines 206-211), which terminates the session. -/
inductive KeyRead where
  | key (k : RawKey)
  | kbInterrupt
  deriving DecidableEq, Repr

/-- Full `MenuInput._get_live_key` with terminal-state passing.
`ttyOk = false` models `termios.tcgetattr`/`tty.setraw` failing (no
controlling tty); `readOk = false` models the read or decode raising inside
the inner `try`.  The inner `finally` restores the saved attributes on both
the return path and the exception path; the outer `except Exception` prints
a notice and raises `KeyboardInterrupt` - there is no line-buffered fallback
in this implementation. -/
def getLiveKeyFull (t0 : Nat) (ttyOk readOk aiMode : Bool) (input : List Char) :
    KeyRead × List Char × Nat :=
  if ttyOk then
    let old := t0
    let traw := rawSettings
    if readOk then
      let (k, rest) := getLiveKey aiMode input
      (.key k, rest, restoreAttrs traw old)
    else
      (.kbInterrupt, input, restoreAttrs traw old)
  else
    (.kbInterrupt, input, t0)

/-! ## Key decoder of `WorkingMenu._get_key` (working_menu.py lines 106-176) -/

/-- The string results returned by `WorkingMenu._get_key`. -/
inductive WMKey where
  | UP | DOWN | RIGHT | LEFT | ESC | ENTER | TAB | UNKNOWN
  | bKey | hKey | qKey
  | other (s : List Char)
  deriving DecidableEq, Repr

/-- Raw-mode decode of `WorkingMenu._get_key` (lines 113-153).  `\x03`
raises `KeyboardInterrupt` (`Sum.inr ()`), which `except Exception` does not
catch, so it propagates. -/
def wmDecodeRaw : List Char → WMKey ⊕ Unit
  | [] => .inl (.other [])
  | c :: rest =>
    if c = '\x1b' then
      match rest with
      | [] => .inl .ESC
      | c2 :: rest2 =>
        if c2 = '[' then
          match rest2 with
          | [] => .inl .UNKNOWN
          | c3 :: _ =>
            if c3 = 'A' then .inl .UP
            else if c3 = 'B' then .inl .DOWN
            else if c3 = 'C' then .inl .RIGHT
            else if c3 = 'D' then .inl .LEFT
            else .inl .UNKNOWN
        else .inl .ESC
    else if c = '\r' ∨ c = '\n' then .inl .ENTER
    else if c = '\t' then .inl .TAB
    else if c = '\x03' then .inr ()
    else if c.toLower = 'b' then .inl .bKey
    else if c.toLower = 'h' then .inl .hKey
    else if c.toLower = 'q' then .inl .qKey
    else if c.toLower = 'j' then .inl .DOWN
    else if c.toLower = 'k' then .inl .UP
    else .inl (.other [c.toLower])

/-- Line-buffered fallback of `WorkingMenu._get_key` (lines 157-176): the
typed command word, stripped and lower-cased, is mapped to a key event.
Total - this path raises nothing. -/
def wmFallback (cmdLine : List Char) : WMKey :=
  let cmd := pyLower (pyStrip cmdLine)
  if cmd = "up".data ∨ cmd = "u".data then .UP
  else if cmd = "down".data ∨ cmd = "d".data then .DOWN
  else if cmd = "enter".data ∨ cmd = "e".data ∨ cmd = [] then .ENTER
  else if cmd = "tab".data then .TAB
  else if cmd = "b".data then .bKey
  else if cmd = "h".data then .hKey
  else if cmd = "q".data then .qKey
  else .other cmd

/-- Full `WorkingMenu._get_key` with terminal-state passing.  On any
`Exception` from the raw path (including unavailability of cbreak mode) the
fallback prompt is used; the `finally` has already restored the attributes.
A `KeyboardInterrupt` from `\x03` propagates (it is not an `Exception`),
also after restoration. -/
def wmGetKeyFull (t0 : Nat) (ttyOk readOk : Bool) (input : List Char)
    (fallbackLine : List Char) : (WMKey ⊕ Unit) × Nat :=
  if ttyOk then
    let old := t0
    let tcb := cbreakSettings
    if readOk then
      match wmDecodeRaw input with
      | .inl k => (.inl k, restoreAttrs tcb old)
      | .inr u => (.inr u, restoreAttrs tcb old)
    else
      (.inl (wmFallback fallbackLine), restoreAttrs tcb old)
  else
    (.inl (wmFallback fallbackLine), t0)

/-! ## Menu model (`MenuInput.show_menu_with_navigation`, lines 66-151) -/

/-- One menu option dict (`{'name': ..., 'value': ...}`). -/
structure MOption where
  name : String
  value : String
  deriving DecidableEq, Repr

/-- The `UP` transition: `self.current_index = max(0, self.current_index - 1)`
(line 98). -/
def moveUp (i : Int) : Int := max 0 (i - 1)

/-- The `DOWN` transition:
`self.current_index = min(len(self.options) - 1, self.current_index + 1)`
(line 104). -/
def moveDown (n i : Int) : Int := min (n - 1) (i + 1)

/-- Behaviour of the caller-supplied help callback when invoked. -/
inductive CallbackBehavior where
  | returns
  | throwsExc (e : String)
  | keyboardInterrupt
  deriving DecidableEq, Repr

/-- Outcome of the Help-key branch (lines 133-139). -/
inductive HelpOutcome where
  | resumed (promptShown : Bool)
  | propagatedExc (e : String)
  | interrupted
  deriving DecidableEq, Repr

/-- The Help-key branch: with no callback nothing happens; a normal return
shows the `"Press Enter to continue..."` prompt and redraws; the loop's
`except KeyboardInterrupt: raise` re-raises `KeyboardInterrupt`, and any
other exception from the callback is not caught anywhere in the loop, so it
propagates out of the engine. -/
def helpKeyAction : Option CallbackBehavior → HelpOutcome
  | none => .resumed false
  | some .returns => .resumed true
  | some (.throwsExc e) => .propagatedExc e
  | some .keyboardInterrupt => .interrupted

/-- Result of one iteration of the key loop, as far as the selection index
and loop termination are concerned. -/
inductive StepRes where
  | cont (idx : Int)
  | retVal (v : String)
  | retBack
  | interrupt
  | raised (e : String)
  deriving DecidableEq, Repr

/-- One iteration of the key dispatch in `show_menu_with_navigation`
(lines 96-151), restricted to the selection index and termination behaviour.
`TAB` enters the chat handler, which never touches `current_index` and
returns only `'exit_to_menu'` or `None`, so the loop continues at the same
index (the chat-state effects are modelled separately by `handleChatEnter`
below).  `VIEW_MESSAGES`, unmapped keys and `RIGHT`/`LEFT`/`ESC` are no-ops. -/
def menuKeyStep (opts : List MOption) (helpCb : Option CallbackBehavior)
    (idx : Int) (k : RawKey) : StepRes :=
  match k with
  | .UP => .cont (moveUp idx)
  | .DOWN => .cont (moveDown (opts.length : Int) idx)
  | .ENTER => .retVal ((opts.map MOption.value).getD idx.toNat "")
  | .TAB => .cont idx
  | .VIEW_MESSAGES => .cont idx
  | .ch c =>
    if c = 'b' ∨ c = 'B' then .retBack
    else if c = 'h' ∨ c = 'H' then
      match helpKeyAction helpCb with
      | .resumed _ => .cont idx
      | .propagatedExc e => .raised e
      | .interrupted => .interrupt
    else if c = 'q' ∨ c = 'Q' then .interrupt
    else .cont idx
  | _ => .cont idx

/-- The key loop of `show_menu_with_navigation` on a finite list of decoded
keys: it continues until a terminal step result, `none` if the input is
exhausted first (the real loop would block for the next key). -/
def runMenu (opts : List MOption) (helpCb : Option CallbackBehavior) :
    Int → List RawKey → Option StepRes
  | _, [] => none
  | idx, k :: ks =>
    match menuKeyStep opts helpCb idx k with
    | .cont i2 => runMenu opts helpCb i2 ks
    | r => some r

/-! ## Chat model (`MenuInput._handle_chat_only_mode`, lines 379-477, and
`MenuInput.add_chat_message`, lines 1008-1012) -/

/-- `MenuInput.add_chat_message`: append, then keep only the last 8 entries
(`self.ai_chat_history = self.ai_chat_history[-8:]`). -/
def addChatMessage (h : List (List Char)) (m : List Char) : List (List Char) :=
  let h2 := h ++ [m]
  if h2.length > 8 then h2.drop (h2.length - 8) else h2

/-- The chat-relevant fields of `MenuInput` while `_handle_chat_only_mode`
runs. -/
structure ChatState where
  aiInput : List Char
  aiThinking : Bool
  chatOnlyMode : Bool
  aiMode : Bool
  chatHistory : List (List Char)
  deriving DecidableEq, Repr

/-- Behaviour of the `self.ai_assistant.process_input(user_msg, self)` call:
it either completes (having itself appended response messages through
`add_chat_message`), or raises, in which case the handler's `except` appends
`"AI Error: ..."`. -/
inductive AssistantCall where
  | completes (appended : List (List Char))
  | throwsExc (e : List Char)
  deriving DecidableEq, Repr

/-- The state reached right after lines 432-439 of the non-empty `ENTER`
branch, before `process_input` returns: the stripped user message is
appended as `"You: " + msg`, the buffer is cleared, and `ai_thinking` is set
(the pending/`(processing...)` display state). -/
def chatEnterPending (s : ChatState) : ChatState :=
  { s with
    chatHistory := addChatMessage s.chatHistory ("You: ".data ++ pyStrip s.aiInput)
    aiInput := []
    aiThinking := true }

/-- The full `ENTER` branch of `_handle_chat_only_mode` (lines 430-451).
Returns the new state and whether a request was dispatched to the assistant.
If the stripped buffer is non-empty and an assistant is configured, the
pending state is entered, `process_input` runs inside `try/except/finally`
(an exception is caught and appended as an `"AI Error: ..."` message), and
`finally` clears `ai_thinking`; otherwise only the buffer is reset. -/
def handleChatEnter (s : ChatState) (hasAssistant : Bool) (call : AssistantCall) :
    ChatState × Bool :=
  if pyStrip s.aiInput ≠ [] ∧ hasAssistant = true then
    let sp := chatEnterPending s
    let s2 :=
      match call with
      | .completes appended =>
          { sp with chatHistory := appended.foldl addChatMessage sp.chatHistory }
      | .throwsExc e =>
          { sp with chatHistory := addChatMessage sp.chatHistory ("AI Error: ".data ++ e) }
    ({ s2 with aiThinking := false }, true)
  else
    ({ s with aiInput := [] }, false)

/-- Message roles.  The history stores bare strings; the renderer
(`_draw_chat_history_clean`, lines 501-548) distinguishes user messages by
the `"You:"` prefix and treats everything else as an assistant message. -/
inductive Role where
  | user
  | assistant
  deriving DecidableEq, Repr

/-- Role of a stored chat message, as `_draw_chat_history_clean` decides it. -/
def msgRole (m : List Char) : Role :=
  if pyStartsWith m "You:".data then .user else .assistant

/-- Display text of a stored chat message, as `_draw_chat_history_clean`
computes it (`msg_text[4:].strip()` respectively `msg_text[3:].strip()`). -/
def msgText (m : List Char) : List Char :=
  if pyStartsWith m "You:".data then pyStrip (m.drop 4)
  else if pyStartsWith m "AI:".data then pyStrip (m.drop 3)
  else m

/-! ## Theorems -/

/-- Any message produced by the error path of the chat handler is rendered
with the assistant role: it starts with `"AI Error: "`, never `"You:"`. -/
lemma msgRole_aiError (e : List Char) : msgRole ("AI Error: ".data ++ e) = .assistant := by
  simp [msgRole, pyStartsWith]

/-- C3: the key decoder maps `1B 5B 41` to Up, `1B 5B 42` to Down and
`1B 6D` to ViewHistory, for any trailing stream; a lone `1B` with no
follow-up byte decodes to the bare-escape result, which the menu loop treats
as a no-op. -/
theorem escape_sequence_decoding (aiMode : Bool) (rest : List Char) :
    getLiveKey aiMode ('\x1b' :: '[' :: 'A' :: rest) = (.UP, rest) ∧
    getLiveKey aiMode ('\x1b' :: '[' :: 'B' :: rest) = (.DOWN, rest) ∧
    getLiveKey aiMode ('\x1b' :: 'm' :: rest) = (.VIEW_MESSAGES, rest) ∧
    getLiveKey aiMode ['\x1b'] = (.ESC, []) ∧
    (∀ (opts : List MOption) (cb : Option CallbackBehavior) (idx : Int),
        menuKeyStep opts cb idx .ESC = .cont idx) :=
  ⟨rfl, rfl, rfl, rfl, fun _ _ _ => rfl⟩

/-- C9: for the menu `[("A","a"),("B","b")]` and the event sequence
`[Down, Down, Enter]`, the second Down clamps at the last index and Enter
returns `"b"`. -/
theorem menu_scenario_down_down_enter :
    runMenu [⟨"A", "a"⟩, ⟨"B", "b"⟩] none 0 [.DOWN, .DOWN, .ENTER] =
      some (.retVal "b") := by
  decide

/-- C10: from any valid interior index `i < N-1`, moveDown followed by
moveUp returns to `i`. -/
theorem move_down_up_roundtrip (n i : Int) (h0 : 0 ≤ i) (hi : i < n - 1) :
    moveUp (moveDown n i) = i := by
  unfold moveUp moveDown
  omega

theorem move_down_up_roundtrip_witness : moveUp (moveDown 3 1) = 1 :=
  move_down_up_roundtrip 3 1 (by decide) (by decide)

/-- C5: `add_chat_message` keeps the history at its capacity of 8 (the
length after an append is `min (old+1) 8`), and eviction is FIFO: after 9
appends to an empty history the result is exactly the newest 8 messages in
their original order, and the oldest message is gone (when not re-sent as
one of the later 8). -/
theorem chat_history_capacity_fifo :
    (∀ (h : List (List Char)) (m : List Char),
        (addChatMessage h m).length = min (h.length + 1) 8) ∧
    (∀ m0 m1 m2 m3 m4 m5 m6 m7 m8 : List Char,
        List.foldl addChatMessage [] [m0, m1, m2, m3, m4, m5, m6, m7, m8] =
          [m1, m2, m3, m4, m5, m6, m7, m8] ∧
        (m0 ∉ [m1, m2, m3, m4, m5, m6, m7, m8] →
          m0 ∉ List.foldl addChatMessage [] [m0, m1, m2, m3, m4, m5, m6, m7, m8])) := by
  have hfold : ∀ m0 m1 m2 m3 m4 m5 m6 m7 m8 : List Char,
      List.foldl addChatMessage [] [m0, m1, m2, m3, m4, m5, m6, m7, m8] =
        [m1, m2, m3, m4, m5, m6, m7, m8] := by
    intro m0 m1 m2 m3 m4 m5 m6 m7 m8
    simp [addChatMessage, List.foldl]
  refine ⟨?_, fun m0 m1 m2 m3 m4 m5 m6 m7 m8 => ⟨hfold .., ?_⟩⟩
  · intro h m
    simp only [addChatMessage]
    split
    · rename_i hc
      simp only [List.length_drop, List.length_append, List.length_singleton] at *
      omega
    · rename_i hc
      simp only [List.length_append, List.length_singleton] at *
      omega
  · intro hne
    rw [hfold ..]
    exact hne

theorem chat_history_capacity_fifo_witness :
    "x0".data ∉ List.foldl addChatMessage []
        ["x0".data, "x1".data, "x2".data, "x3".data, "x4".data,
         "x5".data, "x6".data, "x7".data, "x8".data] :=
  (chat_history_capacity_fifo.2 "x0".data "x1".data "x2".data "x3".data
      "x4".data "x5".data "x6".data "x7".data "x8".data).2 (by decide)

/-- C8: both raw key readers restore the saved terminal attributes on every
exit path - normal return, read/decode failure, missing tty, and the
propagating KeyboardInterrupt in WorkingMenu's raw path. -/
theorem raw_mode_always_restored (t0 : Nat) (ttyOk readOk aiMode : Bool)
    (input fallbackLine : List Char) :
    (getLiveKeyFull t0 ttyOk readOk aiMode input).2.2 = t0 ∧
    (wmGetKeyFull t0 ttyOk readOk input fallbackLine).2 = t0 := by
  constructor
  · cases ttyOk <;> cases readOk <;>
      simp [getLiveKeyFull, restoreAttrs]
  · cases ttyOk <;> cases readOk <;>
      simp [wmGetKeyFull, restoreAttrs]
    rcases wmDecodeRaw input with k | u <;> simp

/-- C7 counterexample: with a help callback that throws, the Help key in
Menu mode produces a propagating exception, not a return to the Menu state -
the loop catches only KeyboardInterrupt (and re-raises it), so nothing is
caught at the boundary. -/
theorem help_callback_exception_counterexample :
    menuKeyStep [⟨"A", "a"⟩] (some (.throwsExc "boom")) 0 (.ch 'h') =
      .raised "boom" ∧
    helpKeyAction (some (.throwsExc "boom")) ≠ .resumed true ∧
    helpKeyAction (some (.throwsExc "boom")) ≠ .resumed false := by
  decide

/-- C7 amended: an exception from the help callback propagates out of the
engine loop uncaught (only KeyboardInterrupt is caught, and re-raised); only
when the callback returns normally is the "Press Enter to continue..."
prompt shown and the loop resumed in a stable Menu state at the same
index. -/
theorem help_callback_exception_amended (e : String) (opts : List MOption)
    (idx : Int) :
    menuKeyStep opts (some (.throwsExc e)) idx (.ch 'h') = .raised e ∧
    menuKeyStep opts (some (.throwsExc e)) idx (.ch 'H') = .raised e ∧
    menuKeyStep opts (some .keyboardInterrupt) idx (.ch 'h') = .interrupt ∧
    menuKeyStep opts (some .returns) idx (.ch 'h') = .cont idx ∧
    helpKeyAction (some .returns) = .resumed true :=
  ⟨rfl, rfl, rfl, rfl, rfl⟩

/-- C4 counterexample: when raw terminal access is unavailable,
`MenuInput._get_live_key` does not degrade to a line-buffered prompt - it
raises KeyboardInterrupt, which terminates the session. -/
theorem no_tty_fallback_counterexample :
    getLiveKeyFull 0 false true false "up".data = (.kbInterrupt, "up".data, 0) := by
  decide

/-- C4 amended: only `WorkingMenu._get_key` falls back to the line-buffered
prompt on a terminal without raw/cbreak support, mapping the typed words
"up", "down", "enter", "tab", "b", "h", "q" to the corresponding key events
without throwing and without disturbing the terminal attributes;
`MenuInput._get_live_key` instead prints a notice and raises
KeyboardInterrupt, failing the session rather than degrading. -/
theorem no_tty_fallback_amended (t0 : Nat) (aiMode : Bool)
    (input line : List Char) :
    wmFallback "up".data = .UP ∧
    wmFallback "down".data = .DOWN ∧
    wmFallback "enter".data = .ENTER ∧
    wmFallback "tab".data = .TAB ∧
    wmFallback "b".data = .bKey ∧
    wmFallback "h".data = .hKey ∧
    wmFallback "q".data = .qKey ∧
    (wmGetKeyFull t0 false true input line).1 = .inl (wmFallback line) ∧
    (wmGetKeyFull t0 false true input line).2 = t0 ∧
    (getLiveKeyFull t0 false true aiMode input).1 = .kbInterrupt :=
  ⟨by decide, by decide, by decide, by decide, by decide, by decide, by decide,
   rfl, rfl, rfl⟩

/-- C1: for a non-empty option list the selection index stays in
`[0, N-1]` after every transition of the key loop, and the clamp policy
holds: any number of Down events from index `N-1` leaves it at `N-1`, and
any number of Up events from `0` leaves it at `0`. -/
theorem selection_index_always_clamped (opts : List MOption)
    (cb : Option CallbackBehavior) (idx : Int)
    (hne : opts ≠ []) (h0 : 0 ≤ idx) (h1 : idx ≤ (opts.length : Int) - 1) :
    (∀ (k : RawKey) (i2 : Int),
        menuKeyStep opts cb idx k = .cont i2 →
          0 ≤ i2 ∧ i2 ≤ (opts.length : Int) - 1) ∧
    (∀ m : Nat,
        (moveDown (opts.length : Int))^[m] ((opts.length : Int) - 1) =
          (opts.length : Int) - 1) ∧
    (∀ m : Nat, moveUp^[m] 0 = 0) := by
  have hlen : 1 ≤ (opts.length : Int) := by
    have hz : opts.length ≠ 0 := fun h => hne (List.length_eq_zero.mp h)
    omega
  refine ⟨?_, ?_, ?_⟩
  · intro k i2 hk
    cases k with
    | UP =>
        simp only [menuKeyStep, moveUp, StepRes.cont.injEq] at hk
        omega
    | DOWN =>
        simp only [menuKeyStep, moveDown, StepRes.cont.injEq] at hk
        omega
    | ENTER => simp [menuKeyStep] at hk
    | TAB =>
        simp only [menuKeyStep, StepRes.cont.injEq] at hk
        omega
    | VIEW_MESSAGES =>
        simp only [menuKeyStep, StepRes.cont.injEq] at hk
        omega
    | ch c =>
        simp only [menuKeyStep] at hk
        split_ifs at hk with hb hh hq
        · rcases hcb : helpKeyAction cb with p | e2 | _ <;> rw [hcb] at hk <;>
            simp at hk
          omega
        · simp only [StepRes.cont.injEq] at hk
          omega
    | RIGHT =>
        simp only [menuKeyStep, StepRes.cont.injEq] at hk
        omega
    | LEFT =>
        simp only [menuKeyStep, StepRes.cont.injEq] at hk
        omega
    | ESC =>
        simp only [menuKeyStep, StepRes.cont.injEq] at hk
        omega
    | emptyRead =>
        simp only [menuKeyStep, StepRes.cont.injEq] at hk
        omega
  · intro m
    apply Function.iterate_fixed
    unfold moveDown
    omega
  · intro m
    apply Function.iterate_fixed
    unfold moveUp
    omega

theorem selection_index_always_clamped_witness :
    (moveDown (([⟨"A", "a"⟩, ⟨"B", "b"⟩] : List MOption).length : Int))^[4]
        ((([⟨"A", "a"⟩, ⟨"B", "b"⟩] : List MOption).length : Int) - 1) =
      (([⟨"A", "a"⟩, ⟨"B", "b"⟩] : List MOption).length : Int) - 1 ∧
    moveUp^[5] 0 = 0 :=
  ⟨(selection_index_always_clamped [⟨"A", "a"⟩, ⟨"B", "b"⟩] none 0
      (by decide) (by decide) (by decide)).2.1 4,
   (selection_index_always_clamped [⟨"A", "a"⟩, ⟨"B", "b"⟩] none 0
      (by decide) (by decide) (by decide)).2.2 5⟩

/-- C6: Enter in chat-entry mode with an empty or whitespace-only buffer
performs no mode transition, leaves the chat history unchanged, and issues
no request to the assistant. -/
theorem empty_chat_enter_noop (s : ChatState) (hasAssistant : Bool)
    (call : AssistantCall) (hbuf : pyStrip s.aiInput = []) :
    handleChatEnter s hasAssistant call = ({ s with aiInput := [] }, false) ∧
    (handleChatEnter s hasAssistant call).2 = false ∧
    (handleChatEnter s hasAssistant call).1.chatHistory = s.chatHistory ∧
    (handleChatEnter s hasAssistant call).1.aiThinking = s.aiThinking ∧
    (handleChatEnter s hasAssistant call).1.chatOnlyMode = s.chatOnlyMode ∧
    (handleChatEnter s hasAssistant call).1.aiMode = s.aiMode := by
  have hmain : handleChatEnter s hasAssistant call =
      ({ s with aiInput := [] }, false) := by
    unfold handleChatEnter
    rw [if_neg]
    simp [hbuf]
  exact ⟨hmain, by rw [hmain], by rw [hmain], by rw [hmain], by rw [hmain],
    by rw [hmain]⟩

theorem empty_chat_enter_noop_witness :
    handleChatEnter ⟨"   ".data, false, true, true, ["m".data]⟩ true
        (.throwsExc "x".data) =
      (⟨[], false, true, true, ["m".data]⟩, false) :=
  (empty_chat_enter_noop ⟨"   ".data, false, true, true, ["m".data]⟩ true
      (.throwsExc "x".data) (by decide)).1

/-- C2: Enter in chat-entry mode with buffer `"list files"` enters the
pending state (`ai_thinking` set) with a User message equal to the trimmed
buffer appended and the buffer cleared; if the assistant call raises, an
Assistant-rendered error message is appended, `ai_thinking` is cleared again
(back to chat-entry, mode flags untouched) and the buffer stays empty, with
the handler returning normally - the same buffer/mode outcome as on
success.  The error is never fatal to the loop. -/
theorem chat_enter_dispatch_and_error_recovery (s : ChatState)
    (hbuf : s.aiInput = "list files".data) :
    (chatEnterPending s).aiThinking = true ∧
    (chatEnterPending s).aiInput = [] ∧
    (chatEnterPending s).chatHistory =
      addChatMessage s.chatHistory ("You: list files".data) ∧
    msgRole ("You: list files".data) = .user ∧
    msgText ("You: list files".data) = "list files".data ∧
    (∀ e : List Char,
        (handleChatEnter s true (.throwsExc e)).2 = true ∧
        (handleChatEnter s true (.throwsExc e)).1.aiThinking = false ∧
        (handleChatEnter s true (.throwsExc e)).1.aiInput = [] ∧
        (handleChatEnter s true (.throwsExc e)).1.chatOnlyMode = s.chatOnlyMode ∧
        (handleChatEnter s true (.throwsExc e)).1.aiMode = s.aiMode ∧
        (handleChatEnter s true (.throwsExc e)).1.chatHistory =
          addChatMessage (addChatMessage s.chatHistory ("You: list files".data))
            ("AI Error: ".data ++ e) ∧
        msgRole ("AI Error: ".data ++ e) = .assistant) ∧
    (∀ msgs : List (List Char),
        (handleChatEnter s true (.completes msgs)).2 = true ∧
        (handleChatEnter s true (.completes msgs)).1.aiInput = [] ∧
        (handleChatEnter s true (.completes msgs)).1.aiThinking = false) := by
  obtain ⟨inp, thk, cm, am, hist⟩ := s
  simp only at hbuf
  subst hbuf
  have hyou : "You: ".data ++ pyStrip "list files".data = "You: list files".data := by
    decide
  have hcond : pyStrip ("list files".data) ≠ [] ∧ (true : Bool) = true := by
    decide
  refine ⟨rfl, rfl, ?_, by decide, by decide, ?_, ?_⟩
  · show addChatMessage hist ("You: ".data ++ pyStrip "list files".data) = _
    rw [hyou]
  · intro e
    unfold handleChatEnter
    rw [if_pos hcond]
    refine ⟨rfl, rfl, rfl, rfl, rfl, ?_, msgRole_aiError e⟩
    show addChatMessage (addChatMessage hist ("You: ".data ++ pyStrip "list files".data)) _ = _
    rw [hyou]
  · intro msgs
    unfold handleChatEnter
    rw [if_pos hcond]
    exact ⟨rfl, rfl, rfl⟩

theorem chat_enter_dispatch_and_error_recovery_witness :
    (chatEnterPending ⟨"list files".data, false, true, true, []⟩).aiThinking = true ∧
    (handleChatEnter ⟨"list files".data, false, true, true, []⟩ true
        (.throwsExc "boom".data)).1.aiInput = [] :=
  ⟨(chat_enter_dispatch_and_error_recovery
      ⟨"list files".data, false, true, true, []⟩ rfl).1,
   ((chat_enter_dispatch_and_error_recovery
      ⟨"list files".data, false, true, true, []⟩ rfl).2.2.2.2.2.1 "boom".data).2.2.1⟩

end ModeTerminal
